import Mathlib

/-
Verification development for the syncato-lib storage layer.

We give a shallow embedding of:
  * the Go standard-library helpers the storage code relies on
    (path/filepath Clean/Join/Base/Ext/Dir, net/url parsing and printing,
    the os error predicates os.IsExist / os.IsNotExist),
  * an explicit filesystem state with the os-level operations used by the
    local backend (Stat, Open, Create+Copy, Rename, Remove, RemoveAll,
    Mkdir, MkdirAll, Readdir),
  * the local filesystem backend StorageLocal (package local),
  * the storage multiplexer StorageMux (package mux).

Byte streams are modelled as pure byte lists (read to EOF, no I/O faults),
URLs are modelled without percent-escaping or userinfo (none of the inputs
considered here use them), and machine integers (int64 sizes, Unix
timestamps) are modelled as Int/Nat since no operation here overflows them.
String helpers are written over the character list of a String with
structural recursion only, so every definition evaluates inside the kernel.
-/

/- ===== character-list string helpers ==================================== -/

def splitOnCharAux (sep : Char) (cur : List Char) : List Char → List (List Char)
  | [] => [cur.reverse]
  | c :: rest =>
    if c = sep then cur.reverse :: splitOnCharAux sep [] rest
    else splitOnCharAux sep (c :: cur) rest

/-- Split a string at every occurrence of a separator character (the
behaviour of Go strings.Split with a one-character separator). -/
def strSplitOnChar (sep : Char) (s : String) : List String :=
  (splitOnCharAux sep [] s.data).map String.mk

def joinWithChar (sep : Char) : List (List Char) → List Char
  | [] => []
  | [x] => x
  | x :: y :: rest => x ++ sep :: joinWithChar sep (y :: rest)

/-- Join strings with a separator character (Go strings.Join). -/
def strJoinWith (sep : Char) (l : List String) : String :=
  String.mk (joinWithChar sep (l.map String.data))

def listStartsWith [DecidableEq α] : List α → List α → Bool
  | _, [] => true
  | [], _ :: _ => false
  | a :: l, b :: l' => a = b && listStartsWith l l'

/-- Go strings.HasPrefix. -/
def strStartsWith (s pre : String) : Bool :=
  listStartsWith s.data pre.data

def strDropRightWhile (p : Char → Bool) (s : String) : String :=
  String.mk ((s.data.reverse.dropWhile p).reverse)

def strDrop (s : String) (n : Nat) : String :=
  String.mk (s.data.drop n)

def strLength (s : String) : Nat :=
  s.data.length

def strContainsChar (s : String) (c : Char) : Bool :=
  s.data.contains c

def charToLower (c : Char) : Char :=
  if 65 ≤ c.toNat ∧ c.toNat ≤ 90 then Char.ofNat (c.toNat + 32) else c

/-- ASCII lower-casing (Go strings.ToLower on the scheme strings used here). -/
def strToLower (s : String) : String :=
  String.mk (s.data.map charToLower)

/- ===== Go path/filepath, Unix rules ===================================== -/

/-- One step of filepath.Clean's element processing: skip empty and dot
elements, apply dotdot backtracking. The accumulator is kept reversed. -/
def cleanStep (rooted : Bool) (acc : List String) (seg : String) : List String :=
  if seg = "" ∨ seg = "." then acc
  else if seg = ".." then
    match acc with
    | [] => if rooted then [] else [".."]
    | a :: rest => if a = ".." then seg :: a :: rest else rest
  else seg :: acc

/-- Go filepath.Clean for Unix paths: lexical normalization.  It collapses
repeated separators, removes dot elements and resolves dotdot elements
purely lexically (a rooted path never backtracks above the root). -/
def filepathClean (path : String) : String :=
  if path = "" then "."
  else
    let rooted := strStartsWith path "/"
    let segs := ((strSplitOnChar '/' path).foldl (cleanStep rooted) []).reverse
    let out := strJoinWith '/' segs
    if rooted then "/" ++ out
    else if out = "" then "." else out

/-- Go filepath.Join: join the non-empty elements with a separator and Clean
the result; all-empty input yields the empty string. -/
def filepathJoin (elems : List String) : String :=
  let ne := elems.filter (fun e => e ≠ "")
  if ne.isEmpty then "" else filepathClean (strJoinWith '/' ne)

/-- Go filepath.Base: last element of the path after stripping trailing
slashes; empty input gives ".", an all-slash path gives "/". -/
def filepathBase (path : String) : String :=
  if path = "" then "."
  else
    let p := strDropRightWhile (fun c => c = '/') path
    if p = "" then "/"
    else (strSplitOnChar '/' p).getLastD p

/-- Go filepath.Ext: the suffix of the final path element starting at its
final dot; empty if the final element has no dot. -/
def filepathExt (path : String) : String :=
  let base := (strSplitOnChar '/' path).getLastD path
  match strSplitOnChar '.' base with
  | [] => ""
  | [_] => ""
  | parts => "." ++ parts.getLastD ""

/-- Go filepath.Dir: everything up to and including the final separator,
Cleaned; a path with no separator gives ".". -/
def filepathDir (path : String) : String :=
  match strSplitOnChar '/' path with
  | [] => "."
  | [_] => "."
  | segs => filepathClean (strJoinWith '/' segs.dropLast ++ "/")

/-- Go net/url URL record, restricted to the fields the storage code reads
or writes (Scheme, Opaque, Host, Path, RawQuery, Fragment). -/
structure URL where
  scheme : String := ""
  opaquePart : String := ""
  host : String := ""
  path : String := ""
  rawQuery : String := ""
  fragment : String := ""

deriving DecidableEq, Repr

/-- Split at the first occurrence of a separator: Go split(s, c, cutc=true).
Returns the part before and, when the separator occurs, the part after. -/
def cutFirst (sep : Char) (s : String) : String × Option String :=
  match strSplitOnChar sep s with
  | [] => (s, none)
  | [x] => (x, none)
  | x :: rest => (x, some (strJoinWith sep rest))

/-- Split at the first occurrence keeping the separator on the right part:
Go split(s, c, cutc=false). -/
def cutKeep (sep : Char) (s : String) : String × String :=
  match strSplitOnChar sep s with
  | [] => (s, "")
  | [x] => (x, "")
  | x :: rest => (x, String.mk [sep] ++ strJoinWith sep rest)

def schemeAlphaChar (c : Char) : Bool :=
  (97 ≤ c.toNat ∧ c.toNat ≤ 122) ∨ (65 ≤ c.toNat ∧ c.toNat ≤ 90)

def schemeExtraChar (c : Char) : Bool :=
  (48 ≤ c.toNat ∧ c.toNat ≤ 57) ∨ c = '+' ∨ c = '-' ∨ c = '.'

/-- Go net/url getscheme: scan for "scheme:"; a leading digit or a
non-scheme character means the whole string is a path, a colon in first
position is a parse error. -/
def getschemeAux (rawurl : String) (acc : List Char) :
    List Char → Except String (String × String)
  | [] => .ok ("", rawurl)
  | c :: rest =>
    if schemeAlphaChar c then getschemeAux rawurl (c :: acc) rest
    else if schemeExtraChar c then
      if acc.isEmpty then .ok ("", rawurl)
      else getschemeAux rawurl (c :: acc) rest
    else if c = ':' then
      if acc.isEmpty then .error "missing protocol scheme"
      else .ok (String.mk acc.reverse, String.mk rest)
    else .ok ("", rawurl)

def getscheme (rawurl : String) : Except String (String × String) :=
  getschemeAux rawurl [] rawurl.data

/-- Go url.Parse for URLs without percent-escapes or userinfo: split the
fragment at the first '#', extract the scheme (lower-cased), split the raw
query at the first '?', then either take an opaque part (scheme present,
rest not starting with '/'), an authority ("//host" followed by the path)
or a bare path. -/
def urlParse (rawurl : String) : Except String URL :=
  let (beforeFrag, frag) := cutFirst '#' rawurl
  match getscheme beforeFrag with
  | .error e => .error e
  | .ok (scheme0, rest0) =>
    let scheme := strToLower scheme0
    let (rest1, query) := cutFirst '?' rest0
    let fragment := frag.getD ""
    let rawQuery := query.getD ""
    if ¬ strStartsWith rest1 "/" ∧ scheme ≠ "" then
      .ok { scheme := scheme, opaquePart := rest1, rawQuery := rawQuery, fragment := fragment }
    else if strStartsWith rest1 "//" ∧ (scheme ≠ "" ∨ ¬ strStartsWith rest1 "///") then
      let (authority, rest2) := cutKeep '/' (strDrop rest1 2)
      .ok { scheme := scheme, host := authority, path := rest2,
            rawQuery := rawQuery, fragment := fragment }
    else
      .ok { scheme := scheme, path := rest1, rawQuery := rawQuery, fragment := fragment }

/-- Go url.URL.String for the modelled fields: scheme ":", then the opaque
part, or "//host" (whenever a scheme or host is present) followed by the
path, then "?" rawQuery and "#" fragment when non-empty. -/
def urlString (u : URL) : String :=
  (if u.scheme ≠ "" then u.scheme ++ ":" else "")
  ++ (if u.opaquePart ≠ "" then u.opaquePart
      else
        (if u.scheme ≠ "" ∨ u.host ≠ "" then "//" ++ u.host else "") ++ u.path)
  ++ (if u.rawQuery ≠ "" then "?" ++ u.rawQuery else "")
  ++ (if u.fragment ≠ "" then "#" ++ u.fragment else "")

deriving instance DecidableEq for Except

inductive Errno where
  | ENOENT
  | EEXIST
  | ENOTEMPTY
  | EISDIR
  | ENOTDIR

deriving DecidableEq, Repr

def errnoText : Errno → String
  | .ENOENT => "no such file or directory"
  | .EEXIST => "file exists"
  | .ENOTEMPTY => "directory not empty"
  | .EISDIR => "is a directory"
  | .ENOTDIR => "not a directory"

/-- Go os.PathError / os.LinkError values produced by the modelled syscalls. -/
inductive OsErr where
  | pathErr (op path : String) (errno : Errno)
  | linkErr (op oldPath newPath : String) (errno : Errno)

deriving DecidableEq, Repr

def OsErr.errnoOf : OsErr → Errno
  | .pathErr _ _ e => e
  | .linkErr _ _ _ e => e

/-- The Error() string of a PathError / LinkError. -/
def OsErr.message : OsErr → String
  | .pathErr op path e => op ++ " " ++ path ++ ": " ++ errnoText e
  | .linkErr op o n e => op ++ " " ++ o ++ " " ++ n ++ ": " ++ errnoText e

/-- Go os.IsExist after unwrapping PathError/LinkError: true for EEXIST and
also for ENOTEMPTY (error_unix.go lists both as "exists" signals). -/
def osIsExist (e : OsErr) : Bool :=
  decide (e.errnoOf = .EEXIST ∨ e.errnoOf = .ENOTEMPTY)

/-- Go os.IsNotExist after unwrapping: true exactly for ENOENT. -/
def osIsNotExist (e : OsErr) : Bool :=
  decide (e.errnoOf = .ENOENT)

/- ===== filesystem state and os-level operations ========================= -/

/-- A filesystem node: a regular file with its byte content and Unix mtime,
or a directory with its mtime and the size the filesystem reports for it. -/
inductive Node where
  | file (content : List Nat) (mtime : Int)
  | dir (mtime : Int) (sz : Nat)

deriving DecidableEq, Repr

/-- Filesystem state: a finite map from cleaned absolute paths to nodes
(association list; enumeration order is the list order), plus the current
clock used as the mtime of newly written files. -/
structure FS where
  entries : List (String × Node)
  clock : Int

deriving DecidableEq, Repr

def fsFind (fs : FS) (p : String) : Option Node :=
  (fs.entries.find? (fun kv => kv.fst == p)).map (fun kv => kv.snd)

def fsErase (fs : FS) (p : String) : FS :=
  { fs with entries := fs.entries.filter (fun kv => !(kv.fst == p)) }

def fsSet (fs : FS) (p : String) (n : Node) : FS :=
  { fs with entries := (p, n) :: (fsErase fs p).entries }

/-- The name under which a map key appears as an immediate child of a
directory path, when it does. -/
def childNameOf (dirPath key : String) : Option String :=
  let pre := if dirPath = "/" then "/" else dirPath ++ "/"
  if strStartsWith key pre then
    let rest := strDrop key (strLength pre)
    if rest ≠ "" ∧ ¬ strContainsChar rest '/' then some rest else none
  else none

structure FileInfo where
  name : String
  size : Nat
  isDir : Bool
  mtime : Int

deriving DecidableEq, Repr

def nodeInfo (name : String) : Node → FileInfo
  | .file c t => { name := name, size := c.length, isDir := false, mtime := t }
  | .dir t sz => { name := name, size := sz, isDir := true, mtime := t }

/-- os.Stat: metadata of the node at a path, ENOENT when absent. -/
def osStat (fs : FS) (p : String) : Except OsErr FileInfo :=
  match fsFind fs p with
  | none => .error (.pathErr "stat" p .ENOENT)
  | some n => .ok (nodeInfo (filepathBase p) n)

/-- The reader obtained from os.Open: a file's full content, or a directory
handle (opening a directory succeeds; reading it as a stream fails later). -/
inductive FileHandle where
  | fileBytes (content : List Nat)
  | dirHandle

deriving DecidableEq, Repr

def osOpen (fs : FS) (p : String) : Except OsErr FileHandle :=
  match fsFind fs p with
  | none => .error (.pathErr "open" p .ENOENT)
  | some (.file c _) => .ok (.fileBytes c)
  | some (.dir _ _) => .ok .dirHandle

/-- Readdir(0): the immediate children of a directory, in map enumeration
order (the contract leaves this order unspecified). -/
def osReaddir (fs : FS) (p : String) : List FileInfo :=
  fs.entries.filterMap (fun kv =>
    (childNameOf p kv.fst).map (fun name => nodeInfo name kv.snd))

/-- os.Create followed by io.Copy of the whole (pure) stream: truncate an
existing file or create a new one under an existing parent directory, with
the usual EISDIR / ENOTDIR / ENOENT failures. -/
def osCreateWrite (fs : FS) (p : String) (content : List Nat) : Except OsErr FS :=
  match fsFind fs p with
  | some (.dir _ _) => .error (.pathErr "open" p .EISDIR)
  | some (.file _ _) => .ok (fsSet fs p (.file content fs.clock))
  | none =>
    match fsFind fs (filepathDir p) with
    | some (.dir _ _) => .ok (fsSet fs p (.file content fs.clock))
    | some (.file _ _) => .error (.pathErr "open" p .ENOTDIR)
    | none => .error (.pathErr "open" p .ENOENT)

def renameKey (fromPath toPath key : String) : String :=
  if key = fromPath then toPath
  else if strStartsWith key (fromPath ++ "/") then toPath ++ strDrop key (strLength fromPath)
  else key

def fsMove (fs : FS) (fromPath toPath : String) : FS :=
  { fs with entries := fs.entries.map (fun kv => (renameKey fromPath toPath kv.fst, kv.snd)) }

/-- os.Rename (rename(2)): moves the source node together with its subtree;
the target's parent must exist, an existing target file is replaced, an
existing target directory must be empty and the source a directory. -/
def osRename (fs : FS) (fromPath toPath : String) : Except OsErr FS :=
  match fsFind fs fromPath with
  | none => .error (.linkErr "rename" fromPath toPath .ENOENT)
  | some n =>
    if fromPath = toPath then .ok fs
    else
      match fsFind fs (filepathDir toPath) with
      | some (.dir _ _) =>
        match n, fsFind fs toPath with
        | _, none => .ok (fsMove fs fromPath toPath)
        | .file _ _, some (.file _ _) => .ok (fsMove (fsErase fs toPath) fromPath toPath)
        | .file _ _, some (.dir _ _) => .error (.linkErr "rename" fromPath toPath .EISDIR)
        | .dir _ _, some (.file _ _) => .error (.linkErr "rename" fromPath toPath .ENOTDIR)
        | .dir _ _, some (.dir _ _) =>
          if (osReaddir fs toPath).isEmpty then .ok (fsMove (fsErase fs toPath) fromPath toPath)
          else .error (.linkErr "rename" fromPath toPath .ENOTEMPTY)
      | some (.file _ _) => .error (.linkErr "rename" fromPath toPath .ENOTDIR)
      | none => .error (.linkErr "rename" fromPath toPath .ENOENT)

/-- os.Remove: unlink a file or an empty directory; ENOTEMPTY otherwise. -/
def osRemove (fs : FS) (p : String) : Except OsErr FS :=
  match fsFind fs p with
  | none => .error (.pathErr "remove" p .ENOENT)
  | some (.file _ _) => .ok (fsErase fs p)
  | some (.dir _ _) =>
    if (osReaddir fs p).isEmpty then .ok (fsErase fs p)
    else .error (.pathErr "remove" p .ENOTEMPTY)

/-- os.RemoveAll: remove the path and all its descendants; removing an
absent path is not an error. -/
def osRemoveAll (fs : FS) (p : String) : FS :=
  { fs with entries := fs.entries.filter (fun kv =>
      !(kv.fst == p || strStartsWith kv.fst (p ++ "/"))) }

/-- os.Mkdir: create one directory under an existing parent. -/
def osMkdir (fs : FS) (p : String) : Except OsErr FS :=
  match fsFind fs p with
  | some _ => .error (.pathErr "mkdir" p .EEXIST)
  | none =>
    match fsFind fs (filepathDir p) with
    | some (.dir _ _) => .ok (fsSet fs p (.dir fs.clock 0))
    | some (.file _ _) => .error (.pathErr "mkdir" p .ENOTDIR)
    | none => .error (.pathErr "mkdir" p .ENOENT)

def ancestorsAux (base : String) : List String → List String
  | [] => []
  | x :: rest =>
    if x = "" then ancestorsAux base rest
    else
      let cur := if base = "" then x else if base = "/" then "/" ++ x else base ++ "/" ++ x
      cur :: ancestorsAux cur rest

/-- Every ancestor of a cleaned path, outermost first, the path itself last. -/
def pathAncestors (p : String) : List String :=
  let cp := filepathClean p
  if strStartsWith cp "/" then ancestorsAux "/" (strSplitOnChar '/' cp)
  else ancestorsAux "" (strSplitOnChar '/' cp)

/-- os.MkdirAll: succeed if the path is already a directory, fail with
ENOTDIR when a file is in the way, otherwise create every missing ancestor. -/
def osMkdirAll (fs : FS) (p : String) : Except OsErr FS :=
  match fsFind fs (filepathClean p) with
  | some (.dir _ _) => .ok fs
  | some (.file _ _) => .error (.pathErr "mkdir" (filepathClean p) .ENOTDIR)
  | none =>
    (pathAncestors p).foldl (fun acc q =>
      match acc with
      | .error e => .error e
      | .ok f =>
        match fsFind f q with
        | some (.dir _ _) => .ok f
        | some (.file _ _) => .error (.pathErr "mkdir" q .ENOTDIR)
        | none => .ok (fsSet f q (.dir f.clock 0))) (.ok fs)

/- ===== package storage: errors and metadata ============================= -/

/-- The error values of package storage, plus the two shapes of plain Go
error that cross this layer unconverted: errors.New strings (genericError,
used by the multiplexer for registration and home-routing failures) and
native os errors passed through unchanged (osError). -/
inductive Err where
  | existError (msg : String)
  | notExistError (msg : String)
  | crossStorageCopyNotImplemented
  | crossStorageMoveNotImplemented
  | genericError (msg : String)
  | osError (e : OsErr)

deriving DecidableEq, Repr

/-- storage.IsExistError: a type assertion on *ExistError. -/
def Err.isExistKind : Err → Bool
  | .existError _ => true
  | _ => false

/-- storage.IsNotExistError: a type assertion on *NotExistError. -/
def Err.isNotExistKind : Err → Bool
  | .notExistError _ => true
  | _ => false

/-- storage.MetaData (Checksum/ChecksumType stay empty in the local backend;
Extra is never set by it and is omitted). Children is nil unless filled. -/
structure MetaData where
  id : String
  path : String
  size : Nat
  isCol : Bool
  mimeType : String
  checksum : String := ""
  checksumType : String := ""
  modified : Int
  etag : String
  children : List MetaData := []

deriving Repr

/-- auth.AuthResource, restricted to the two fields the storage layer
reads (Username, AuthID). -/
structure AuthResource where
  username : String
  authID : String

deriving DecidableEq, Repr

/- ===== package local: StorageLocal ====================================== -/

/-- local.StorageLocal.  rootDataDir / rootTmpDir come from the config; the
mime.TypeByExtension table is a parameter (mimeTable) returning "" for an
unknown extension, as Go's table does. -/
structure StorageLocal where
  scheme : String
  rootDataDir : String
  rootTmpDir : String
  mimeTable : String → String

def StorageLocal.GetScheme (s : StorageLocal) : String :=
  s.scheme

/-- local.StorageLocal.ConvertError on a non-nil error (the nil case is the
success branch of the callers): os.IsExist errors become ExistError,
os.IsNotExist errors become NotExistError, anything else passes through. -/
def StorageLocal.ConvertError (_s : StorageLocal) (e : OsErr) : Err :=
  if osIsExist e then .existError e.message
  else if osIsNotExist e then .notExistError e.message
  else .osError e

/-- The absolute path the local backend resolves a URI path to:
filepath.Clean(filepath.Join(rootDataDir, AuthID, Username, uri.Path)),
the expression repeated in GetFile/Stat/Remove/CreateCol/Copy/Rename. -/
def StorageLocal.localAbsPath (s : StorageLocal) (authRes : AuthResource) (uriPath : String) : String :=
  filepathClean (filepathJoin [s.rootDataDir, authRes.authID, authRes.username, uriPath])

/-- local.StorageLocal.commitPutFile: rename the staged temp file to
filepath.Join(rootDataDir, to) — note: no AuthID/Username components — and
return the os.Rename error unconverted. -/
def StorageLocal.commitPutFile (s : StorageLocal) (fs : FS) (fromPath toPath : String) :
    Option Err × FS :=
  let toabsPath := filepathJoin [s.rootDataDir, toPath]
  match osRename fs fromPath toabsPath with
  | .error e => (some (.osError e), fs)
  | .ok fs2 => (none, fs2)

/-- local.StorageLocal.PutFile: stage the stream at
Join(rootTmpDir, AuthID, Username, Base(uri.Path)) (os.Create + io.Copy,
errors converted), then commitPutFile to the data root.  The declared size
argument is accepted and never used, exactly as in the source. -/
def StorageLocal.PutFile (s : StorageLocal) (authRes : AuthResource) (uri : URL)
    (r : List Nat) (size : Int) (fs : FS) : Option Err × FS :=
  let tmpPath := filepathJoin [s.rootTmpDir, authRes.authID, authRes.username,
    filepathBase uri.path]
  match osCreateWrite fs tmpPath r with
  | .error e => (some (s.ConvertError e), fs)
  | .ok fs1 => s.commitPutFile fs1 tmpPath uri.path

/-- local.StorageLocal.GetFile: open the resolved path, converting the
error; on success the caller receives the (readable-to-EOF) handle. -/
def StorageLocal.GetFile (s : StorageLocal) (authRes : AuthResource) (uri : URL) (fs : FS) :
    Except Err FileHandle :=
  match osOpen fs (s.localAbsPath authRes uri.path) with
  | .error e => .error (s.ConvertError e)
  | .ok h => .ok h

def etagOf (mtime : Int) : String :=
  "\"" ++ toString mtime ++ "\""

/-- The mime type computation of local.StorageLocal.Stat, applied to the
parent (from uri.Path) and to each child (from the joined child path):
mime.TypeByExtension of the extension, "application/octet-stream" when the
table has no entry, and "inode/directory" for any directory. -/
def mimeTypeFor (table : String → String) (path : String) (isDir : Bool) : String :=
  let m := table (filepathExt path)
  let m := if m = "" then "application/octet-stream" else m
  if isDir then "inode/directory" else m

/-- One loop iteration of Stat's child-listing: the caller's URL first has
its Fragment and RawQuery cleared, then the child path is
filepath.Join(uri.String(), name). -/
def statChildStep (s : StorageLocal) (acc : URL × List MetaData) (f : FileInfo) :
    URL × List MetaData :=
  let u := { acc.1 with fragment := "", rawQuery := "" }
  let childPath := filepathJoin [urlString u, f.name]
  let m : MetaData := {
    id := childPath, path := childPath, size := f.size, isCol := f.isDir,
    modified := f.mtime, etag := etagOf f.mtime,
    mimeType := mimeTypeFor s.mimeTable childPath f.isDir, children := [] }
  (u, acc.2 ++ [m])

/-- local.StorageLocal.Stat.  Returns the result together with the final
state of the caller-supplied URL object (the loop body mutates it).  The
Readdir of an already-opened directory is modelled as total. -/
def StorageLocal.Stat (s : StorageLocal) (authRes : AuthResource) (uri : URL)
    (children : Bool) (fs : FS) : Except Err MetaData × URL :=
  let absPath := s.localAbsPath authRes uri.path
  match osStat fs absPath with
  | .error e => (.error (s.ConvertError e), uri)
  | .ok finfo =>
    let meta : MetaData := {
      id := urlString uri, path := urlString uri, size := finfo.size,
      isCol := finfo.isDir, modified := finfo.mtime, etag := etagOf finfo.mtime,
      mimeType := mimeTypeFor s.mimeTable uri.path finfo.isDir, children := [] }
    if meta.isCol = false then (.ok meta, uri)
    else if children = false then (.ok meta, uri)
    else
      match osOpen fs absPath with
      | .error e => (.error (s.ConvertError e), uri)
      | .ok _ =>
        let finfos := osReaddir fs absPath
        let out := finfos.foldl (statChildStep s) (uri, [])
        (.ok { meta with children := out.2 }, out.1)

/-- local.StorageLocal.Remove: os.Remove or os.RemoveAll on the resolved
path, with the error converted (ConvertError(nil) = nil is the ok case). -/
def StorageLocal.Remove (s : StorageLocal) (authRes : AuthResource) (uri : URL)
    (recursive : Bool) (fs : FS) : Option Err × FS :=
  let absPath := s.localAbsPath authRes uri.path
  if !recursive then
    match osRemove fs absPath with
    | .error e => (some (s.ConvertError e), fs)
    | .ok fs1 => (none, fs1)
  else (none, osRemoveAll fs absPath)

/-- local.StorageLocal.CreateCol: os.Mkdir, or os.MkdirAll when recursive,
with the error converted. -/
def StorageLocal.CreateCol (s : StorageLocal) (authRes : AuthResource) (uri : URL)
    (recursive : Bool) (fs : FS) : Option Err × FS :=
  let absPath := s.localAbsPath authRes uri.path
  if recursive = false then
    match osMkdir fs absPath with
    | .error e => (some (s.ConvertError e), fs)
    | .ok fs1 => (none, fs1)
  else
    match osMkdirAll fs absPath with
    | .error e => (some (s.ConvertError e), fs)
    | .ok fs1 => (none, fs1)

/-- local.StorageLocal.Copy: open the source, create the target and copy
the stream; every error is returned raw (no ConvertError in the source).
Copying a directory handle creates/truncates the target and then fails at
the io.Copy read with EISDIR. -/
def StorageLocal.Copy (s : StorageLocal) (authRes : AuthResource) (fromUri toUri : URL)
    (fs : FS) : Option Err × FS :=
  let fromabsPath := s.localAbsPath authRes fromUri.path
  let toabsPath := s.localAbsPath authRes toUri.path
  match osOpen fs fromabsPath with
  | .error e => (some (.osError e), fs)
  | .ok (.fileBytes c) =>
    match osCreateWrite fs toabsPath c with
    | .error e => (some (.osError e), fs)
    | .ok fs1 => (none, fs1)
  | .ok .dirHandle =>
    match osCreateWrite fs toabsPath [] with
    | .error e => (some (.osError e), fs)
    | .ok fs1 => (some (.osError (.pathErr "read" fromabsPath .EISDIR)), fs1)

/-- local.StorageLocal.Rename: os.Rename between the two resolved paths,
with the error converted. -/
def StorageLocal.Rename (s : StorageLocal) (authRes : AuthResource) (fromUri toUri : URL)
    (fs : FS) : Option Err × FS :=
  let fromabsPath := s.localAbsPath authRes fromUri.path
  let toabsPath := s.localAbsPath authRes toUri.path
  match osRename fs fromabsPath toabsPath with
  | .error e => (some (s.ConvertError e), fs)
  | .ok fs1 => (none, fs1)

/-- local.StorageLocal.IsUserHomeCreated: os.Stat on
Join(rootDataDir, AuthID, Username); a non-ENOENT stat failure is returned
raw. -/
def StorageLocal.IsUserHomeCreated (s : StorageLocal) (authRes : AuthResource) (fs : FS) :
    Except Err Bool :=
  let homeDir := filepathJoin [s.rootDataDir, authRes.authID, authRes.username]
  match osStat fs homeDir with
  | .ok _ => .ok true
  | .error e => if osIsNotExist e then .ok false else .error (.osError e)

/-- local.StorageLocal.CreateUserHome: no-op when the home exists, else
os.MkdirAll of the home directory, error returned raw. -/
def StorageLocal.CreateUserHome (s : StorageLocal) (authRes : AuthResource) (fs : FS) :
    Option Err × FS :=
  match s.IsUserHomeCreated authRes fs with
  | .error e => (some e, fs)
  | .ok true => (none, fs)
  | .ok false =>
    let homeDir := filepathJoin [s.rootDataDir, authRes.authID, authRes.username]
    match osMkdirAll fs homeDir with
    | .error e => (some (.osError e), fs)
    | .ok fs1 => (none, fs1)

/- ===== package mux: StorageMux ========================================== -/

/-- A registered storage provider as the multiplexer sees it: its
GetScheme value plus an identity tag distinguishing instances. -/
structure Provider where
  scheme : String
  pid : Nat

deriving DecidableEq, Repr

def Provider.GetScheme (p : Provider) : String :=
  p.scheme

/-- mux.StorageMux: the scheme-to-provider registry (Go map, modelled as an
association list whose keys the registration discipline keeps unique). -/
structure StorageMux where
  storageProviders : List (String × Provider)

deriving DecidableEq, Repr

def StorageMux.GetStorageProvider (m : StorageMux) (storageScheme : String) : Option Provider :=
  (m.storageProviders.find? (fun kv => kv.fst == storageScheme)).map (fun kv => kv.snd)

/-- mux.StorageMux.AddStorageProvider: reject a scheme that is already
present (leaving the registry untouched), otherwise insert under
s.GetScheme().  Returned like the Go method: an optional error plus the
receiver's state afterwards. -/
def StorageMux.AddStorageProvider (m : StorageMux) (s : Provider) : Option Err × StorageMux :=
  match m.GetStorageProvider s.GetScheme with
  | some _ => (some (.genericError ("storage " ++ s.GetScheme ++ " already registered")), m)
  | none => (none, { m with storageProviders := m.storageProviders ++ [(s.GetScheme, s)] })

/-- The backend invocation a routed multiplexer operation forwards to.  The
multiplexer itself only parses, looks up and forwards, so its behaviour is
fully described by either an error or the forwarded call. -/
inductive BackendCall where
  | putFileCall (p : Provider) (a : AuthResource) (uri : URL) (r : List Nat) (size : Int)
  | getFileCall (p : Provider) (a : AuthResource) (uri : URL)
  | statCall (p : Provider) (a : AuthResource) (uri : URL) (children : Bool)
  | removeCall (p : Provider) (a : AuthResource) (uri : URL) (recursive : Bool)
  | createColCall (p : Provider) (a : AuthResource) (uri : URL) (recursive : Bool)
  | copyCall (p : Provider) (a : AuthResource) (fromUri toUri : URL)
  | renameCall (p : Provider) (a : AuthResource) (fromUri toUri : URL)
  | createUserHomeCall (p : Provider) (a : AuthResource)
  | isUserHomeCreatedCall (p : Provider) (a : AuthResource)

deriving DecidableEq, Repr

/-- mux.StorageMux.getStorageAndURIFromPath: parse the raw URI (a parse
failure becomes a NotExistError), then look the scheme up in the registry
(absence becomes a NotExistError naming the scheme). -/
def StorageMux.getStorageAndURIFromPath (m : StorageMux) (resourceUrl : String) :
    Except Err (Provider × URL) :=
  match urlParse resourceUrl with
  | .error e => .error (.notExistError e)
  | .ok uri =>
    match m.GetStorageProvider uri.scheme with
    | none => .error (.notExistError ("storage " ++ uri.scheme ++ " not registered"))
    | some s => .ok (s, uri)

def StorageMux.PutFile (m : StorageMux) (authRes : AuthResource) (rawUri : String)
    (r : List Nat) (size : Int) : Except Err BackendCall :=
  match m.getStorageAndURIFromPath rawUri with
  | .error e => .error e
  | .ok (s, uri) => .ok (.putFileCall s authRes uri r size)

def StorageMux.GetFile (m : StorageMux) (authRes : AuthResource) (rawUri : String) :
    Except Err BackendCall :=
  match m.getStorageAndURIFromPath rawUri with
  | .error e => .error e
  | .ok (s, uri) => .ok (.getFileCall s authRes uri)

def StorageMux.Stat (m : StorageMux) (authRes : AuthResource) (rawUri : String)
    (children : Bool) : Except Err BackendCall :=
  match m.getStorageAndURIFromPath rawUri with
  | .error e => .error e
  | .ok (s, uri) => .ok (.statCall s authRes uri children)

def StorageMux.Remove (m : StorageMux) (authRes : AuthResource) (rawUri : String)
    (recursive : Bool) : Except Err BackendCall :=
  match m.getStorageAndURIFromPath rawUri with
  | .error e => .error e
  | .ok (s, uri) => .ok (.removeCall s authRes uri recursive)

def StorageMux.CreateCol (m : StorageMux) (authRes : AuthResource) (rawUri : String)
    (recursive : Bool) : Except Err BackendCall :=
  match m.getStorageAndURIFromPath rawUri with
  | .error e => .error e
  | .ok (s, uri) => .ok (.createColCall s authRes uri recursive)

/-- mux.StorageMux.Copy: resolve both URIs (either failure short-circuits),
reject differing schemes with CrossStorageCopyNotImplemented, otherwise
forward to the from-provider's Copy. -/
def StorageMux.Copy (m : StorageMux) (authRes : AuthResource) (fromRawUri toRawUri : String) :
    Except Err BackendCall :=
  match m.getStorageAndURIFromPath fromRawUri with
  | .error e => .error e
  | .ok (fromStorage, fromUri) =>
    match m.getStorageAndURIFromPath toRawUri with
    | .error e => .error e
    | .ok (toStorage, toUri) =>
      if fromStorage.GetScheme ≠ toStorage.GetScheme then
        .error .crossStorageCopyNotImplemented
      else .ok (.copyCall fromStorage authRes fromUri toUri)

/-- mux.StorageMux.Rename: same shape as Copy with
CrossStorageMoveNotImplemented. -/
def StorageMux.Rename (m : StorageMux) (authRes : AuthResource) (fromRawUri toRawUri : String) :
    Except Err BackendCall :=
  match m.getStorageAndURIFromPath fromRawUri with
  | .error e => .error e
  | .ok (fromStorage, fromUri) =>
    match m.getStorageAndURIFromPath toRawUri with
    | .error e => .error e
    | .ok (toStorage, toUri) =>
      if fromStorage.GetScheme ≠ toStorage.GetScheme then
        .error .crossStorageMoveNotImplemented
      else .ok (.renameCall fromStorage authRes fromUri toUri)

/-- mux.StorageMux.CreateUserHome: routed by an explicit scheme string; a
missing backend yields errors.New("storage 'x' not registered") — a plain
error, not a NotExistError. -/
def StorageMux.CreateUserHome (m : StorageMux) (authRes : AuthResource)
    (storageScheme : String) : Except Err BackendCall :=
  match m.GetStorageProvider storageScheme with
  | none => .error (.genericError ("storage '" ++ storageScheme ++ "' not registered"))
  | some st => .ok (.createUserHomeCall st authRes)

/-- mux.StorageMux.IsUserHomeCreated: same routing and same plain error as
CreateUserHome. -/
def StorageMux.IsUserHomeCreated (m : StorageMux) (authRes : AuthResource)
    (storageScheme : String) : Except Err BackendCall :=
  match m.GetStorageProvider storageScheme with
  | none => .error (.genericError ("storage '" ++ storageScheme ++ "' not registered"))
  | some st => .ok (.isUserHomeCreatedCall st authRes)

/- ===== concrete fixtures ================================================ -/

/-- A concrete mime.TypeByExtension table for closed-instance theorems. -/
def sampleMimeTable : String → String :=
  fun ext =>
    if ext = ".txt" then "text/plain; charset=utf-8"
    else if ext = ".png" then "image/png"
    else ""

def sLocal : StorageLocal :=
  { scheme := "local", rootDataDir := "/data", rootTmpDir := "/tmp",
    mimeTable := sampleMimeTable }

def alice : AuthResource :=
  { username := "alice", authID := "json" }

/-- Data root and temp root with alice's per-user directories present. -/
def fs0 : FS :=
  { entries := [
      ("/", .dir 0 0), ("/data", .dir 0 0), ("/data/json", .dir 0 0),
      ("/data/json/alice", .dir 0 0), ("/tmp", .dir 0 0), ("/tmp/json", .dir 0 0),
      ("/tmp/json/alice", .dir 0 0)],
    clock := 5 }

def uriBeach : URL :=
  { scheme := "local", host := "photos", path := "/beach.png" }

def pLocal : Provider := { scheme := "local", pid := 0 }

def pMem : Provider := { scheme := "mem", pid := 1 }

def mux2 : StorageMux := { storageProviders := [("local", pLocal), ("mem", pMem)] }

def mux0 : StorageMux := { storageProviders := [] }

def pLocal2 : Provider := { scheme := "local", pid := 7 }

def uriStripped (u : URL) : URL :=
  { u with fragment := "", rawQuery := "" }

/-- The child MetaData Stat builds for one directory entry, given the
already-stripped parent URL. -/
def childMetaOf (s : StorageLocal) (u : URL) (f : FileInfo) : MetaData :=
  let childPath := filepathJoin [urlString u, f.name]
  { id := childPath, path := childPath, size := f.size, isCol := f.isDir,
    modified := f.mtime, etag := etagOf f.mtime,
    mimeType := mimeTypeFor s.mimeTable childPath f.isDir, children := [] }

def mkLocal (T : String → String) : StorageLocal :=
  { scheme := "local", rootDataDir := "/data", rootTmpDir := "/tmp", mimeTable := T }

def uriPhotos : URL :=
  { scheme := "local", host := "x", path := "/photos" }

/-- alice's home containing the collection photos with exactly a regular
file a.txt (content c, mtime t1) and a sub-directory b (mtime t2). -/
def statDirFS (c : List Nat) (t1 t2 t3 : Int) (sz2 szp : Nat) : FS :=
  { entries := [
      ("/", .dir 0 0), ("/data", .dir 0 0), ("/data/json", .dir 0 0),
      ("/data/json/alice", .dir 0 0),
      ("/data/json/alice/photos", .dir t3 szp),
      ("/data/json/alice/photos/a.txt", .file c t1),
      ("/data/json/alice/photos/b", .dir t2 sz2)],
    clock := 9 }

def childIdsOf : Except Err MetaData → List String
  | .ok m => m.children.map (fun ch => ch.id)
  | .error _ => []

def childPathsOf : Except Err MetaData → List String
  | .ok m => m.children.map (fun ch => ch.path)
  | .error _ => []

def isColOf : Except Err MetaData → Bool
  | .ok m => m.isCol
  | .error _ => false

def uriPhotosHost : URL :=
  { scheme := "local", host := "photos", path := "" }

/-- alice's home (which "local://photos" resolves to, since its uri.Path is
empty) containing the single entry beach.png. -/
def fsHomeBeach : FS :=
  { entries := [("/", .dir 0 0), ("/data", .dir 0 0), ("/data/json", .dir 0 0),
      ("/data/json/alice", .dir 0 0), ("/data/json/alice/beach.png", .file [7] 3)],
    clock := 5 }

def uriFrag : URL :=
  { scheme := "local", host := "x", path := "/photos", rawQuery := "q=1", fragment := "f" }

/-- alice's home with an empty collection photos. -/
def fsEmptyPhotos : FS :=
  { entries := [("/", .dir 0 0), ("/data", .dir 0 0), ("/data/json", .dir 0 0),
      ("/data/json/alice", .dir 0 0), ("/data/json/alice/photos", .dir 2 0)],
    clock := 5 }

/-- alice's home with the collection photos holding one file. -/
def fsOnePhoto : FS :=
  { entries := [("/", .dir 0 0), ("/data", .dir 0 0), ("/data/json", .dir 0 0),
      ("/data/json/alice", .dir 0 0), ("/data/json/alice/photos", .dir 2 0),
      ("/data/json/alice/photos/beach.png", .file [7] 3)],
    clock := 5 }

def nodeContent : Node → Option (List Nat)
  | .file c _ => some c
  | .dir _ _ => none

example : filepathClean "/data/a/u//../../../etc/passwd" = "/etc/passwd" := by decide

example : filepathClean "local://photos/beach.png" = "local:/photos/beach.png" := by decide

example : filepathJoin ["/data", "/beach.png"] = "/data/beach.png" := by decide

example : filepathJoin ["/tmp", "json", "alice", "beach.png"] = "/tmp/json/alice/beach.png" := by decide

example : filepathBase "/photos/beach.png" = "beach.png" := by decide

example : filepathExt "/photos/beach.png" = ".png" := by decide

example : filepathExt "local:/x/photos/a.txt" = ".txt" := by decide

example : filepathDir "/data/beach.png" = "/data" := by decide

example : filepathDir "/x" = "/" := by decide

/- ===== Go net/url (subset: no escaping, no userinfo) ==================== -/

example : urlParse "local://photos/beach.png" =
    .ok { scheme := "local", host := "photos", path := "/beach.png" } := by decide

example : urlParse "local://photos" = .ok { scheme := "local", host := "photos" } := by decide

example : urlParse "nope://x" = .ok { scheme := "nope", host := "x" } := by decide

example : urlString { scheme := "local", host := "photos", path := "/beach.png" } =
    "local://photos/beach.png" := by decide

example : urlString { scheme := "local", host := "photos" } = "local://photos" := by decide

/- ===== os error model =================================================== -/

example : (sLocal.PutFile alice uriBeach [1, 2, 3] 3 fs0).fst = none := by decide

example : fsFind (sLocal.PutFile alice uriBeach [1, 2, 3] 3 fs0).snd "/data/beach.png" =
    some (.file [1, 2, 3] 5) := by decide

example : sLocal.GetFile alice uriBeach (sLocal.PutFile alice uriBeach [1, 2, 3] 3 fs0).snd =
    .error (.notExistError "open /data/json/alice/beach.png: no such file or directory") := by
  decide

example : sLocal.localAbsPath alice "/../../../etc/passwd" = "/etc/passwd" := by decide

/- ===== claim theorems =================================================== -/

/-- C1: the put/get round-trip fails on the code.  With the per-user data
and temp directories present, PutFile(P, local://photos/beach.png, c)
succeeds but commits the upload to dataRoot/beach.png — commitPutFile joins
the data root with uri.Path only, omitting AuthID/Username — while GetFile
reads dataRoot/AuthID/Username/beach.png, so it fails with NotExistError
instead of streaming c back. -/
theorem putFile_getFile_roundTrip_fails :
    (sLocal.PutFile alice uriBeach [1, 2, 3] 3 fs0).fst = none ∧
    fsFind (sLocal.PutFile alice uriBeach [1, 2, 3] 3 fs0).snd "/data/beach.png" =
      some (.file [1, 2, 3] 5) ∧
    fsFind (sLocal.PutFile alice uriBeach [1, 2, 3] 3 fs0).snd "/data/json/alice/beach.png" =
      none ∧
    sLocal.GetFile alice uriBeach (sLocal.PutFile alice uriBeach [1, 2, 3] 3 fs0).snd =
      .error (.notExistError "open /data/json/alice/beach.png: no such file or directory") :=
  ⟨by decide, by decide, by decide, by decide⟩

/-- C2: local-backend operations are not confined to the per-user root
dataRoot/AuthID/Username/.  A URI path with dotdot segments resolves
outside it (filepath.Join cleans only after concatenating, so the dotdots
cancel the per-user components), and a successful PutFile writes its commit
destination dataRoot/uri.Path outside the per-user root even for a
dotdot-free URI. -/
theorem local_paths_escape_user_root :
    sLocal.localAbsPath alice "/../../../etc/passwd" = "/etc/passwd" ∧
    strStartsWith "/etc/passwd" "/data/json/alice/" = false ∧
    fsFind (sLocal.PutFile alice uriBeach [1, 2, 3] 3 fs0).snd "/data/beach.png" =
      some (.file [1, 2, 3] 5) ∧
    strStartsWith "/data/beach.png" "/data/json/alice/" = false :=
  ⟨by decide, by decide, by decide, by decide⟩

/-- C3: when both raw URIs parse and resolve through the registry, Copy and
Rename compare the resolved providers' schemes: differing schemes fail
immediately with the dedicated cross-storage errors — and an error result
in this routing model is by construction the absence of any forwarded
backend call — while equal schemes forward the call to the resolved
from-provider's Copy/Rename with the parsed URIs. -/
theorem mux_copy_rename_cross_scheme
    (m : StorageMux) (a : AuthResource) (fromRaw toRaw : String)
    (fromS toS : Provider) (fromUri toUri : URL)
    (hf : m.getStorageAndURIFromPath fromRaw = .ok (fromS, fromUri))
    (ht : m.getStorageAndURIFromPath toRaw = .ok (toS, toUri)) :
    (fromS.GetScheme ≠ toS.GetScheme →
      m.Copy a fromRaw toRaw = .error .crossStorageCopyNotImplemented ∧
      m.Rename a fromRaw toRaw = .error .crossStorageMoveNotImplemented) ∧
    (fromS.GetScheme = toS.GetScheme →
      m.Copy a fromRaw toRaw = .ok (.copyCall fromS a fromUri toUri) ∧
      m.Rename a fromRaw toRaw = .ok (.renameCall fromS a fromUri toUri)) := by
  unfold StorageMux.Copy StorageMux.Rename
  rw [hf, ht]
  constructor
  · intro h
    simp [h]
  · intro h
    simp [h]

/-- Witness for C3 at concrete inputs: registry {local, mem}, a cross-scheme
pair is rejected both ways, a same-scheme pair is forwarded. -/
theorem mux_copy_rename_cross_scheme_witness :
    mux2.Copy alice "local://a" "mem://b" = .error .crossStorageCopyNotImplemented ∧
    mux2.Rename alice "local://a" "mem://b" = .error .crossStorageMoveNotImplemented ∧
    mux2.Copy alice "local://a" "local://b" =
      .ok (.copyCall pLocal alice { scheme := "local", host := "a" }
        { scheme := "local", host := "b" }) ∧
    mux2.Rename alice "local://a" "local://b" =
      .ok (.renameCall pLocal alice { scheme := "local", host := "a" }
        { scheme := "local", host := "b" }) := by
  have hcross := mux_copy_rename_cross_scheme mux2 alice "local://a" "mem://b"
    pLocal pMem { scheme := "local", host := "a" } { scheme := "mem", host := "b" }
    (by decide) (by decide)
  have hsame := mux_copy_rename_cross_scheme mux2 alice "local://a" "local://b"
    pLocal pLocal { scheme := "local", host := "a" } { scheme := "local", host := "b" }
    (by decide) (by decide)
  exact ⟨(hcross.1 (by decide)).1, (hcross.1 (by decide)).2,
    (hsame.2 rfl).1, (hsame.2 rfl).2⟩

/-- C4 fails as stated: on an unregistered scheme the explicit-scheme
operations CreateUserHome / IsUserHomeCreated return errors.New("storage
'nope' not registered") — a plain error that is not a NotExist-kind error
(storage.IsNotExistError is false on it). -/
theorem mux_userHome_unregistered_not_notExist :
    mux0.CreateUserHome alice "nope" =
      .error (.genericError "storage 'nope' not registered") ∧
    mux0.IsUserHomeCreated alice "nope" =
      .error (.genericError "storage 'nope' not registered") ∧
    Err.isNotExistKind (.genericError "storage 'nope' not registered") = false :=
  ⟨by decide, by decide, by decide⟩

/-- C4 (amended): every URI-routed operation (PutFile, GetFile, Stat,
Remove, CreateCol, and Copy/Rename in either URI position) on a scheme with
no registered backend fails with a NotExist-kind error naming the scheme
and forwards no backend call; CreateUserHome and IsUserHomeCreated on an
unregistered explicit scheme also fail without a backend call, but with a
plain errors.New error that is not NotExist-kind. -/
theorem mux_unregistered_scheme_errors
    (m : StorageMux) (a : AuthResource) (raw otherRaw : String) (u : URL)
    (os : Provider) (ou : URL)
    (r : List Nat) (size : Int) (children recursive : Bool) (sch : String)
    (hp : urlParse raw = .ok u)
    (hu : m.GetStorageProvider u.scheme = none)
    (hov : m.getStorageAndURIFromPath otherRaw = .ok (os, ou))
    (hs : m.GetStorageProvider sch = none) :
    (m.PutFile a raw r size =
        .error (.notExistError ("storage " ++ u.scheme ++ " not registered")) ∧
      m.GetFile a raw =
        .error (.notExistError ("storage " ++ u.scheme ++ " not registered")) ∧
      m.Stat a raw children =
        .error (.notExistError ("storage " ++ u.scheme ++ " not registered")) ∧
      m.Remove a raw recursive =
        .error (.notExistError ("storage " ++ u.scheme ++ " not registered")) ∧
      m.CreateCol a raw recursive =
        .error (.notExistError ("storage " ++ u.scheme ++ " not registered")) ∧
      m.Copy a raw otherRaw =
        .error (.notExistError ("storage " ++ u.scheme ++ " not registered")) ∧
      m.Rename a raw otherRaw =
        .error (.notExistError ("storage " ++ u.scheme ++ " not registered")) ∧
      m.Copy a otherRaw raw =
        .error (.notExistError ("storage " ++ u.scheme ++ " not registered")) ∧
      m.Rename a otherRaw raw =
        .error (.notExistError ("storage " ++ u.scheme ++ " not registered"))) ∧
    (m.CreateUserHome a sch =
        .error (.genericError ("storage '" ++ sch ++ "' not registered")) ∧
      m.IsUserHomeCreated a sch =
        .error (.genericError ("storage '" ++ sch ++ "' not registered")) ∧
      Err.isNotExistKind (.genericError ("storage '" ++ sch ++ "' not registered")) = false) := by
  have hra : m.getStorageAndURIFromPath raw =
      .error (.notExistError ("storage " ++ u.scheme ++ " not registered")) := by
    unfold StorageMux.getStorageAndURIFromPath
    rw [hp]
    simp [hu]
  refine ⟨?_, ?_⟩
  · unfold StorageMux.PutFile StorageMux.GetFile StorageMux.Stat StorageMux.Remove
      StorageMux.CreateCol StorageMux.Copy StorageMux.Rename
    rw [hra, hov]
    simp
  · unfold StorageMux.CreateUserHome StorageMux.IsUserHomeCreated
    rw [hs]
    simp [Err.isNotExistKind]

/-- Witness for C4 at concrete inputs: empty registry except local,
scheme "nope". -/
theorem mux_unregistered_scheme_errors_witness :
    mux2.Stat alice "nope://x" true =
      .error (.notExistError "storage nope not registered") ∧
    mux2.Copy alice "local://a" "nope://x" =
      .error (.notExistError "storage nope not registered") ∧
    mux2.CreateUserHome alice "nope" =
      .error (.genericError "storage 'nope' not registered") := by
  have h := mux_unregistered_scheme_errors mux2 alice "nope://x" "local://a"
    { scheme := "nope", host := "x" } pLocal { scheme := "local", host := "a" }
    [] 0 true false "nope" (by decide) (by decide) (by decide) (by decide)
  exact ⟨h.1.2.2.1, h.1.2.2.2.2.2.2.2.1, h.2.1⟩

/-- C6: the registry keeps at most one backend per scheme.
AddStorageProvider on an already-registered scheme returns an error and
leaves the registry unchanged (the first-registered provider keeps
routing); on a fresh scheme it succeeds, registers the provider under its
GetScheme, leaves other schemes untouched, and preserves key uniqueness. -/
theorem addStorageProvider_unique_scheme (m : StorageMux) (s : Provider) :
    (∀ s0, m.GetStorageProvider s.GetScheme = some s0 →
      m.AddStorageProvider s =
        (some (.genericError ("storage " ++ s.GetScheme ++ " already registered")), m) ∧
      (m.AddStorageProvider s).snd.GetStorageProvider s.GetScheme = some s0) ∧
    (m.GetStorageProvider s.GetScheme = none →
      (m.AddStorageProvider s).fst = none ∧
      (m.AddStorageProvider s).snd.storageProviders =
        m.storageProviders ++ [(s.GetScheme, s)] ∧
      (m.AddStorageProvider s).snd.GetStorageProvider s.GetScheme = some s ∧
      (∀ sch, (m.AddStorageProvider s).snd.GetStorageProvider sch = none →
        m.GetStorageProvider sch = none)) ∧
    ((m.storageProviders.map Prod.fst).Nodup →
      ((m.AddStorageProvider s).snd.storageProviders.map Prod.fst).Nodup) := by
  refine ⟨?_, ?_, ?_⟩
  · intro s0 h
    unfold StorageMux.AddStorageProvider
    rw [h]
    exact ⟨rfl, h⟩
  · intro h
    unfold StorageMux.AddStorageProvider
    rw [h]
    have hfind : m.storageProviders.find? (fun kv => kv.fst == s.GetScheme) = none := by
      unfold StorageMux.GetStorageProvider at h
      exact Option.map_eq_none'.mp h
    refine ⟨rfl, rfl, ?_, ?_⟩
    · unfold StorageMux.GetStorageProvider
      simp [List.find?_append, hfind]
    · intro sch hnone
      unfold StorageMux.GetStorageProvider at hnone ⊢
      simp only [List.find?_append] at hnone
      rcases hm : m.storageProviders.find? (fun kv => kv.fst == sch) with _ | kv
      · simp [hm]
      · rw [hm] at hnone
        simp at hnone
  · intro hnd
    rcases hfind : m.GetStorageProvider s.GetScheme with _ | s0
    · unfold StorageMux.AddStorageProvider
      rw [hfind]
      have hk : s.GetScheme ∉ m.storageProviders.map Prod.fst := by
        unfold StorageMux.GetStorageProvider at hfind
        have hf := Option.map_eq_none'.mp hfind
        rw [List.find?_eq_none] at hf
        intro hmem
        obtain ⟨kv, hkv, hfst⟩ := List.mem_map.mp hmem
        have := hf kv hkv
        simp [hfst] at this
      simp [List.nodup_append, hnd]
      intro a hmem
      exact hk (List.mem_map_of_mem Prod.fst hmem)
    · unfold StorageMux.AddStorageProvider
      rw [hfind]
      exact hnd

/-- Witness for C6 at concrete inputs: re-registering scheme local fails
and keeps the first provider; registering into an empty registry succeeds. -/
theorem addStorageProvider_unique_scheme_witness :
    mux2.AddStorageProvider pLocal2 =
      (some (.genericError "storage local already registered"), mux2) ∧
    (mux2.AddStorageProvider pLocal2).snd.GetStorageProvider "local" = some pLocal ∧
    (mux0.AddStorageProvider pLocal).fst = none ∧
    (mux0.AddStorageProvider pLocal).snd.GetStorageProvider "local" = some pLocal := by
  have h1 := (addStorageProvider_unique_scheme mux2 pLocal2).1 pLocal (by decide)
  have h2 := (addStorageProvider_unique_scheme mux0 pLocal).2.1 (by decide)
  exact ⟨h1.1, h1.2, h2.1, h2.2.2.1⟩

theorem statChildStep_eq (s : StorageLocal) (u : URL) (acc : List MetaData) (f : FileInfo) :
    statChildStep s (u, acc) f = (uriStripped u, acc ++ [childMetaOf s (uriStripped u) f]) :=
  rfl

theorem uriStripped_idem (u : URL) : uriStripped (uriStripped u) = uriStripped u :=
  rfl

/-- The children accumulated by Stat's loop: one childMetaOf per directory
entry, all built against the stripped parent URL. -/
theorem statChild_foldl_snd (s : StorageLocal) (l : List FileInfo) (u : URL)
    (acc : List MetaData) :
    (l.foldl (statChildStep s) (u, acc)).2 = acc ++ l.map (childMetaOf s (uriStripped u)) := by
  induction l generalizing u acc with
  | nil => simp
  | cons f t ih =>
    rw [List.foldl_cons, statChildStep_eq, ih]
    simp [uriStripped_idem]

/-- The final state of the URL threaded through Stat's loop: unchanged for
an empty listing, stripped as soon as at least one entry is processed. -/
theorem statChild_foldl_fst (s : StorageLocal) (l : List FileInfo) (u : URL)
    (acc : List MetaData) :
    (l.foldl (statChildStep s) (u, acc)).1 = if l.isEmpty then u else uriStripped u := by
  induction l generalizing u acc with
  | nil => simp
  | cons f t ih =>
    rw [List.foldl_cons, statChildStep_eq, ih]
    cases t <;> simp [uriStripped_idem]

/-- C5: for any mime table T, Stat with includeChildren=true on a directory
holding exactly a.txt (regular file) and b (sub-directory) returns the
collection MetaData with exactly two children — a.txt with the MimeType
derived from the ".txt" extension and IsCollection=false, and b with
MimeType "inode/directory" and IsCollection=true — while
includeChildren=false returns the same parent MetaData with no children. -/
theorem stat_collection_listing (T : String → String) (c : List Nat)
    (t1 t2 t3 : Int) (sz2 szp : Nat) :
    ((mkLocal T).Stat alice uriPhotos true (statDirFS c t1 t2 t3 sz2 szp)).fst =
      .ok { id := "local://x/photos", path := "local://x/photos", size := szp,
            isCol := true, mimeType := "inode/directory", modified := t3,
            etag := etagOf t3,
            children := [
              { id := "local:/x/photos/a.txt", path := "local:/x/photos/a.txt",
                size := c.length, isCol := false, modified := t1, etag := etagOf t1,
                mimeType := mimeTypeFor T "local:/x/photos/a.txt" false, children := [] },
              { id := "local:/x/photos/b", path := "local:/x/photos/b",
                size := sz2, isCol := true, modified := t2, etag := etagOf t2,
                mimeType := "inode/directory", children := [] }] } ∧
    mimeTypeFor T "local:/x/photos/a.txt" false =
      (if T ".txt" = "" then "application/octet-stream" else T ".txt") ∧
    filepathExt "local:/x/photos/a.txt" = ".txt" ∧
    ((mkLocal T).Stat alice uriPhotos false (statDirFS c t1 t2 t3 sz2 szp)).fst =
      .ok { id := "local://x/photos", path := "local://x/photos", size := szp,
            isCol := true, mimeType := "inode/directory", modified := t3,
            etag := etagOf t3, children := [] } := by
  have habs : (mkLocal T).localAbsPath alice uriPhotos.path = "/data/json/alice/photos" := rfl
  have hstat : osStat (statDirFS c t1 t2 t3 sz2 szp) "/data/json/alice/photos" =
      .ok { name := "photos", size := szp, isDir := true, mtime := t3 } := rfl
  have hopen : osOpen (statDirFS c t1 t2 t3 sz2 szp) "/data/json/alice/photos" =
      .ok .dirHandle := rfl
  have hrd : osReaddir (statDirFS c t1 t2 t3 sz2 szp) "/data/json/alice/photos" =
      [{ name := "a.txt", size := c.length, isDir := false, mtime := t1 },
       { name := "b", size := sz2, isDir := true, mtime := t2 }] := rfl
  have hparent : urlString uriPhotos = "local://x/photos" := rfl
  have hmimeP : mimeTypeFor T uriPhotos.path true = "inode/directory" := rfl
  refine ⟨?_, rfl, rfl, ?_⟩
  · unfold StorageLocal.Stat
    rw [habs]
    simp only [hstat, hopen, hrd, statChild_foldl_snd]
    have hA : childMetaOf (mkLocal T) (uriStripped uriPhotos)
        { name := "a.txt", size := c.length, isDir := false, mtime := t1 } =
        { id := "local:/x/photos/a.txt", path := "local:/x/photos/a.txt",
          size := c.length, isCol := false, modified := t1, etag := etagOf t1,
          mimeType := mimeTypeFor T "local:/x/photos/a.txt" false, children := [] } := rfl
    have hB : childMetaOf (mkLocal T) (uriStripped uriPhotos)
        { name := "b", size := sz2, isDir := true, mtime := t2 } =
        { id := "local:/x/photos/b", path := "local:/x/photos/b",
          size := sz2, isCol := true, modified := t2, etag := etagOf t2,
          mimeType := "inode/directory", children := [] } := rfl
    simp only [List.map_cons, List.map_nil, hA, hB, hparent, hmimeP]
    rfl
  · unfold StorageLocal.Stat
    rw [habs]
    simp only [hstat, hparent, hmimeP]
    rfl

/-- C7 fails on its concrete example: for parent URI "local://photos" and
entry "beach.png" the child Id/Path is filepath.Join("local://photos",
"beach.png"), and filepath.Join Cleans its result, collapsing the "//"
after the scheme: the stored child URI is "local:/photos/beach.png", not
"local://photos/beach.png". -/
theorem stat_child_uri_join_counterexample :
    childIdsOf (sLocal.Stat alice uriPhotosHost true fsHomeBeach).fst =
      ["local:/photos/beach.png"] ∧
    childPathsOf (sLocal.Stat alice uriPhotosHost true fsHomeBeach).fst =
      ["local:/photos/beach.png"] ∧
    urlString uriPhotosHost = "local://photos" ∧
    "local:/photos/beach.png" ≠ "local://photos/beach.png" :=
  ⟨by decide, by decide, by decide, by decide⟩

/-- C7 (amended): when Stat lists a collection, each child's Id and Path
are filepath.Join(parent URI string with query/fragment stripped, entry
name); because filepath.Join also Cleans, the "//" after the scheme
collapses (e.g. "local://photos" + "beach.png" gives
"local:/photos/beach.png" rather than "local://photos/beach.png"). -/
theorem stat_child_uri_join (s : StorageLocal) (a : AuthResource) (uri : URL)
    (fs : FS) (t : Int) (sz : Nat)
    (hdir : fsFind fs (s.localAbsPath a uri.path) = some (.dir t sz)) :
    childIdsOf (s.Stat a uri true fs).fst =
      (osReaddir fs (s.localAbsPath a uri.path)).map
        (fun f => filepathJoin [urlString (uriStripped uri), f.name]) ∧
    childPathsOf (s.Stat a uri true fs).fst =
      (osReaddir fs (s.localAbsPath a uri.path)).map
        (fun f => filepathJoin [urlString (uriStripped uri), f.name]) := by
  have hstat : osStat fs (s.localAbsPath a uri.path) =
      .ok (nodeInfo (filepathBase (s.localAbsPath a uri.path)) (.dir t sz)) := by
    unfold osStat
    rw [hdir]
  have hopen : osOpen fs (s.localAbsPath a uri.path) = .ok .dirHandle := by
    unfold osOpen
    rw [hdir]
  unfold StorageLocal.Stat
  simp only [hstat, hopen, nodeInfo, statChild_foldl_snd]
  constructor <;> simp [childIdsOf, childPathsOf, childMetaOf]

/-- Witness for C7 at the concrete counterexample instance. -/
theorem stat_child_uri_join_witness :
    childIdsOf (sLocal.Stat alice uriPhotosHost true fsHomeBeach).fst =
      (osReaddir fsHomeBeach (sLocal.localAbsPath alice uriPhotosHost.path)).map
        (fun f => filepathJoin [urlString (uriStripped uriPhotosHost), f.name]) :=
  (stat_child_uri_join sLocal alice uriPhotosHost fsHomeBeach 0 0 (by decide)).1

/-- C10 fails as stated: Stat with children=true on an empty collection
succeeds but leaves the caller's URL untouched — the fragment/raw-query
assignments sit inside the per-entry loop, which never runs. -/
theorem stat_uri_mutation_empty_collection :
    (sLocal.Stat alice uriFrag true fsEmptyPhotos).snd = uriFrag ∧
    uriFrag.fragment = "f" ∧
    uriFrag.rawQuery = "q=1" ∧
    isColOf (sLocal.Stat alice uriFrag true fsEmptyPhotos).fst = true :=
  ⟨by decide, rfl, rfl, by decide⟩

/-- C10 (amended): Stat clears the caller-supplied URL's fragment and raw
query exactly when children=true, the resource is a collection, and the
listing has at least one entry (the assignments are inside the per-entry
loop); with children=false, on a non-collection, on an absent resource, or
on an empty collection the caller's URL is returned unchanged. -/
theorem stat_uri_mutation (s : StorageLocal) (a : AuthResource) (uri : URL)
    (children : Bool) (fs : FS) :
    (children = false → (s.Stat a uri children fs).snd = uri) ∧
    (∀ c t, fsFind fs (s.localAbsPath a uri.path) = some (.file c t) →
      (s.Stat a uri children fs).snd = uri) ∧
    (fsFind fs (s.localAbsPath a uri.path) = none →
      (s.Stat a uri children fs).snd = uri) ∧
    (∀ t sz, fsFind fs (s.localAbsPath a uri.path) = some (.dir t sz) →
      (osReaddir fs (s.localAbsPath a uri.path)).isEmpty = true →
      (s.Stat a uri children fs).snd = uri) ∧
    (∀ t sz, fsFind fs (s.localAbsPath a uri.path) = some (.dir t sz) →
      (osReaddir fs (s.localAbsPath a uri.path)).isEmpty = false →
      children = true →
      (s.Stat a uri children fs).snd = uriStripped uri) := by
  refine ⟨?_, ?_, ?_, ?_, ?_⟩
  · intro hc
    subst hc
    unfold StorageLocal.Stat
    rcases hf : fsFind fs (s.localAbsPath a uri.path) with _ | n
    · have hstat : osStat fs (s.localAbsPath a uri.path) =
          .error (.pathErr "stat" (s.localAbsPath a uri.path) .ENOENT) := by
        unfold osStat
        rw [hf]
      simp only [hstat]
    · have hstat : osStat fs (s.localAbsPath a uri.path) =
          .ok (nodeInfo (filepathBase (s.localAbsPath a uri.path)) n) := by
        unfold osStat
        rw [hf]
      simp only [hstat]
      cases n <;> simp [nodeInfo]
  · intro c t hf
    have hstat : osStat fs (s.localAbsPath a uri.path) =
        .ok (nodeInfo (filepathBase (s.localAbsPath a uri.path)) (.file c t)) := by
      unfold osStat
      rw [hf]
    unfold StorageLocal.Stat
    simp only [hstat]
    simp [nodeInfo]
  · intro hf
    have hstat : osStat fs (s.localAbsPath a uri.path) =
        .error (.pathErr "stat" (s.localAbsPath a uri.path) .ENOENT) := by
      unfold osStat
      rw [hf]
    unfold StorageLocal.Stat
    simp only [hstat]
  · intro t sz hf hempty
    have hstat : osStat fs (s.localAbsPath a uri.path) =
        .ok (nodeInfo (filepathBase (s.localAbsPath a uri.path)) (.dir t sz)) := by
      unfold osStat
      rw [hf]
    have hopen : osOpen fs (s.localAbsPath a uri.path) = .ok .dirHandle := by
      unfold osOpen
      rw [hf]
    unfold StorageLocal.Stat
    simp only [hstat, hopen, nodeInfo, statChild_foldl_fst, hempty]
    cases children <;> simp
  · intro t sz hf hne hc
    subst hc
    have hstat : osStat fs (s.localAbsPath a uri.path) =
        .ok (nodeInfo (filepathBase (s.localAbsPath a uri.path)) (.dir t sz)) := by
      unfold osStat
      rw [hf]
    have hopen : osOpen fs (s.localAbsPath a uri.path) = .ok .dirHandle := by
      unfold osOpen
      rw [hf]
    unfold StorageLocal.Stat
    simp only [hstat, hopen, nodeInfo, statChild_foldl_fst, hne]
    simp

/-- Witness for C10 at concrete inputs: children=false leaves the URL
unchanged, a non-empty collection listing strips fragment and raw query. -/
theorem stat_uri_mutation_witness :
    (sLocal.Stat alice uriFrag false fsEmptyPhotos).snd = uriFrag ∧
    (sLocal.Stat alice uriFrag true fsOnePhoto).snd = uriStripped uriFrag :=
  ⟨(stat_uri_mutation sLocal alice uriFrag false fsEmptyPhotos).1 rfl,
   (stat_uri_mutation sLocal alice uriFrag true fsOnePhoto).2.2.2.2 2 0
     (by decide) (by decide) rfl⟩

/-- RemoveAll really removes the path itself: looking it up afterwards
fails. -/
theorem fsFind_osRemoveAll_self (fs : FS) (p : String) :
    fsFind (osRemoveAll fs p) p = none := by
  unfold fsFind osRemoveAll
  simp only [Option.map_eq_none']
  rw [List.find?_eq_none]
  intro kv hmem
  have h := List.of_mem_filter hmem
  simp only [Bool.not_eq_true', Bool.or_eq_false_iff] at h
  simp [h.1]

/-- C8 fails in its error-kind half: Remove(recursive=false) on a non-empty
collection returns the Exist-kind taxonomy error, not a generic
passthrough, because Go's os.IsExist also matches ENOTEMPTY. -/
theorem remove_nonempty_error_is_exist_kind :
    (sLocal.Remove alice uriPhotos false fsOnePhoto).fst =
      some (.existError "remove /data/json/alice/photos: directory not empty") ∧
    Err.isExistKind (.existError "remove /data/json/alice/photos: directory not empty") =
      true ∧
    (∀ e : OsErr, (sLocal.Remove alice uriPhotos false fsOnePhoto).fst ≠ some (.osError e)) := by
  refine ⟨by decide, by decide, ?_⟩
  intro e h
  rw [show (sLocal.Remove alice uriPhotos false fsOnePhoto).fst =
    some (.existError "remove /data/json/alice/photos: directory not empty") from by decide] at h
  simp at h

/-- C8 (amended): Remove with recursive=false on a non-empty collection
fails, and ConvertError maps the ENOTEMPTY failure to the Exist-kind
taxonomy error (Go's os.IsExist treats ENOTEMPTY as an "already exists"
signal), rather than passing the native error through; Remove with
recursive=true succeeds, removes the resource and its descendants, and a
subsequent Stat on the URI fails with NotExistError. -/
theorem remove_nonempty_collection (s : StorageLocal) (a : AuthResource) (uri : URL)
    (fs : FS) (t : Int) (sz : Nat) (children : Bool)
    (hdir : fsFind fs (s.localAbsPath a uri.path) = some (.dir t sz))
    (hne : (osReaddir fs (s.localAbsPath a uri.path)).isEmpty = false) :
    s.Remove a uri false fs =
      (some (.existError ("remove " ++ s.localAbsPath a uri.path ++ ": " ++
        "directory not empty")), fs) ∧
    (s.Remove a uri true fs).fst = none ∧
    fsFind (s.Remove a uri true fs).snd (s.localAbsPath a uri.path) = none ∧
    (s.Stat a uri children (s.Remove a uri true fs).snd).fst =
      .error (.notExistError ("stat " ++ s.localAbsPath a uri.path ++ ": " ++
        "no such file or directory")) := by
  have hrem : osRemove fs (s.localAbsPath a uri.path) =
      .error (.pathErr "remove" (s.localAbsPath a uri.path) .ENOTEMPTY) := by
    unfold osRemove
    rw [hdir, hne]
    simp
  have hsnd : (s.Remove a uri true fs).snd = osRemoveAll fs (s.localAbsPath a uri.path) := rfl
  have hgone : fsFind (osRemoveAll fs (s.localAbsPath a uri.path))
      (s.localAbsPath a uri.path) = none := fsFind_osRemoveAll_self fs _
  refine ⟨?_, rfl, by rw [hsnd]; exact hgone, ?_⟩
  · unfold StorageLocal.Remove
    simp only [hrem]
    rfl
  · rw [hsnd]
    have hstat : osStat (osRemoveAll fs (s.localAbsPath a uri.path))
        (s.localAbsPath a uri.path) =
        .error (.pathErr "stat" (s.localAbsPath a uri.path) .ENOENT) := by
      unfold osStat
      rw [hgone]
    unfold StorageLocal.Stat
    simp only [hstat]
    rfl

/-- Witness for C8 at concrete inputs: the collection photos holding one
file. -/
theorem remove_nonempty_collection_witness :
    sLocal.Remove alice uriPhotos false fsOnePhoto =
      (some (.existError "remove /data/json/alice/photos: directory not empty"), fsOnePhoto) ∧
    (sLocal.Remove alice uriPhotos true fsOnePhoto).fst = none ∧
    (sLocal.Stat alice uriPhotos true (sLocal.Remove alice uriPhotos true fsOnePhoto).snd).fst =
      .error (.notExistError "stat /data/json/alice/photos: no such file or directory") := by
  have h := remove_nonempty_collection sLocal alice uriPhotos fsOnePhoto 2 0 true
    (by decide) (by decide)
  exact ⟨h.1, h.2.1, h.2.2.2⟩

theorem listStartsWith_length {α : Type} [DecidableEq α] {l pre : List α}
    (h : listStartsWith l pre = true) : pre.length ≤ l.length := by
  induction pre generalizing l with
  | nil => simp
  | cons b pre ih =>
    cases l with
    | nil => simp [listStartsWith] at h
    | cons a l =>
      simp only [listStartsWith, Bool.and_eq_true, decide_eq_true_eq] at h
      simp only [List.length_cons]
      exact Nat.succ_le_succ (ih h.2)

/-- A key that is neither the rename source nor the rename target is never
mapped onto the target: a strict descendant of the source maps to a strict
descendant of the target. -/
theorem renameKey_ne_target {t d key : String} (hkt : key ≠ t) (hkd : key ≠ d) :
    renameKey t d key ≠ d := by
  unfold renameKey
  rw [if_neg hkt]
  by_cases hpre : strStartsWith key (t ++ "/") = true
  · rw [if_pos hpre]
    intro hcontra
    have hdata := congrArg String.data hcontra
    rw [String.data_append] at hdata
    have hlendata := congrArg List.length hdata
    rw [List.length_append] at hlendata
    have hdrop : (strDrop key (strLength t)).data = key.data.drop t.data.length := rfl
    rw [hdrop, List.length_drop] at hlendata
    have hlen2 : (t ++ "/").data.length ≤ key.data.length := listStartsWith_length hpre
    rw [String.data_append, List.length_append] at hlen2
    have hone : ("/" : String).data.length = 1 := rfl
    rw [hone] at hlen2
    omega
  · rw [if_neg hpre]
    exact hkd

/-- Moving the map keys from t-based to d-based names: when no key is d
already, looking up d afterwards is exactly looking up t before, with the
key renamed. -/
theorem find?_renameKey (l : List (String × Node)) (t d : String)
    (hto : l.find? (fun kv => kv.fst == d) = none) :
    (l.map (fun kv => (renameKey t d kv.fst, kv.snd))).find? (fun kv => kv.fst == d) =
      (l.find? (fun kv => kv.fst == t)).map (fun kv => (d, kv.snd)) := by
  induction l with
  | nil => rfl
  | cons kv rest ih =>
    have hkd : (kv.fst == d) = false := by
      rcases hb : (kv.fst == d) with _ | _
      · rfl
      · simp only [List.find?, hb] at hto
        exact absurd hto (by simp)
    have hto' : rest.find? (fun kv => kv.fst == d) = none := by
      simpa only [List.find?, hkd] using hto
    rcases hbt : (kv.fst == t) with _ | _
    · have h1 : (renameKey t d kv.fst == d) = false := by
        simpa using renameKey_ne_target (show kv.fst ≠ t by simpa using hbt)
          (show kv.fst ≠ d by simpa using hkd)
      simp only [List.map_cons, List.find?, h1, hbt]
      exact ih hto'
    · have hkt : kv.fst = t := by simpa using hbt
      have h2 : (renameKey t d kv.fst == d) = true := by
        simp [renameKey, hkt]
      simp only [List.map_cons, List.find?, h2, hbt]
      simp [renameKey, hkt]

theorem fsFind_fsMove_target (fs : FS) (t d : String) (n : Node)
    (hfrom : fsFind fs t = some n) (hto : fsFind fs d = none) :
    fsFind (fsMove fs t d) d = some n := by
  unfold fsFind at hfrom hto ⊢
  unfold fsMove
  simp only []
  rw [find?_renameKey _ _ _ (Option.map_eq_none'.mp hto)]
  obtain ⟨kv, hkv, hsnd⟩ := Option.map_eq_some'.mp hfrom
  rw [hkv]
  simp [hsnd]

theorem fsFind_fsErase_self (fs : FS) (p : String) :
    fsFind (fsErase fs p) p = none := by
  unfold fsFind fsErase
  simp only [Option.map_eq_none']
  rw [List.find?_eq_none]
  intro kv hmem
  have h := List.of_mem_filter hmem
  simp only [Bool.not_eq_true'] at h
  simp [h]

theorem find?_filter_erase (p q : String) (l : List (String × Node)) (hne : q ≠ p) :
    (l.filter (fun kv => !(kv.fst == p))).find? (fun kv => kv.fst == q) =
      l.find? (fun kv => kv.fst == q) := by
  induction l with
  | nil => rfl
  | cons kv rest ih =>
    by_cases hkp : kv.fst = p
    · rw [List.filter_cons_of_neg (by simp [hkp]),
        List.find?_cons_of_neg _ (by simp [hkp, Ne.symm hne]), ih]
    · rw [List.filter_cons_of_pos (by simp [hkp])]
      by_cases hkq : kv.fst = q
      · rw [List.find?_cons_of_pos _ (by simp [hkq]), List.find?_cons_of_pos _ (by simp [hkq])]
      · rw [List.find?_cons_of_neg _ (by simp [hkq]), List.find?_cons_of_neg _ (by simp [hkq]),
          ih]

theorem fsFind_fsErase_ne (fs : FS) (p q : String) (hne : q ≠ p) :
    fsFind (fsErase fs p) q = fsFind fs q := by
  unfold fsFind fsErase
  simp only []
  rw [find?_filter_erase p q fs.entries hne]

theorem fsFind_fsSet_self (fs : FS) (p : String) (n : Node) :
    fsFind (fsSet fs p n) p = some n := by
  unfold fsFind fsSet
  rw [List.find?_cons_of_pos _ (by simp)]
  rfl

/-- A successful os.Create + io.Copy leaves the full stream content at the
written path, stamped with the current clock. -/
theorem osCreateWrite_find (fs : FS) (p : String) (content : List Nat) (fs1 : FS)
    (h : osCreateWrite fs p content = .ok fs1) :
    fsFind fs1 p = some (.file content fs.clock) := by
  unfold osCreateWrite at h
  split at h
  · exact absurd h (by simp)
  · injection h with h1
    rw [← h1]
    exact fsFind_fsSet_self fs p _
  · split at h
    · injection h with h1
      rw [← h1]
      exact fsFind_fsSet_self fs p _
    · exact absurd h (by simp)
    · exact absurd h (by simp)

/-- A successful os.Rename really makes the moved node visible at the
target path. -/
theorem osRename_moves (fs : FS) (t d : String) (n : Node) (fs2 : FS)
    (hfrom : fsFind fs t = some n) (h : osRename fs t d = .ok fs2) :
    fsFind fs2 d = some n := by
  unfold osRename at h
  rw [hfrom] at h
  simp only [] at h
  by_cases htd : t = d
  · rw [if_pos htd] at h
    injection h with h1
    rw [← h1, ← htd]
    exact hfrom
  · rw [if_neg htd] at h
    rcases hpar : fsFind fs (filepathDir d) with _ | pn
    · rw [hpar] at h
      exact absurd h (by simp)
    · cases pn with
      | file pc pt =>
        rw [hpar] at h
        exact absurd h (by simp)
      | dir pt psz =>
        rw [hpar] at h
        simp only [] at h
        rcases hd : fsFind fs d with _ | dn
        · cases n with
          | file c ct =>
            rw [hd] at h
            simp only [] at h
            injection h with h1
            rw [← h1]
            exact fsFind_fsMove_target fs t d _ hfrom hd
          | dir dt dsz =>
            rw [hd] at h
            simp only [] at h
            injection h with h1
            rw [← h1]
            exact fsFind_fsMove_target fs t d _ hfrom hd
        · cases n with
          | file c ct =>
            cases dn with
            | file c2 t2 =>
              rw [hd] at h
              simp only [] at h
              injection h with h1
              rw [← h1]
              exact fsFind_fsMove_target (fsErase fs d) t d _
                ((fsFind_fsErase_ne fs d t htd).trans hfrom)
                (fsFind_fsErase_self fs d)
            | dir t2 sz2 =>
              rw [hd] at h
              exact absurd h (by simp)
          | dir dt dsz =>
            cases dn with
            | file c2 t2 =>
              rw [hd] at h
              exact absurd h (by simp)
            | dir t2 sz2 =>
              rw [hd] at h
              simp only [] at h
              by_cases hEmp : (osReaddir fs d).isEmpty = true
              · rw [if_pos hEmp] at h
                injection h with h1
                rw [← h1]
                exact fsFind_fsMove_target (fsErase fs d) t d _
                  ((fsFind_fsErase_ne fs d t htd).trans hfrom)
                  (fsFind_fsErase_self fs d)
              · rw [if_neg hEmp] at h
                exact absurd h (by simp)

/-- C9: PutFile never reads its declared-size argument — any two size
arguments produce identical results, so a stream shorter or longer than the
declared size is accepted — and a successful PutFile stores at its commit
destination filepath.Join(rootDataDir, uri.Path) exactly the bytes of the
stream, read to EOF. -/
theorem putFile_ignores_size_stores_stream
    (s : StorageLocal) (a : AuthResource) (uri : URL) (r : List Nat)
    (size size' : Int) (fs fs' : FS)
    (h : s.PutFile a uri r size fs = (none, fs')) :
    s.PutFile a uri r size' fs = (none, fs') ∧
    (fsFind fs' (filepathJoin [s.rootDataDir, uri.path])).bind nodeContent = some r := by
  have hsz : s.PutFile a uri r size' fs = s.PutFile a uri r size fs := rfl
  refine ⟨hsz.trans h, ?_⟩
  unfold StorageLocal.PutFile at h
  dsimp only [] at h
  rcases hcw : osCreateWrite fs
      (filepathJoin [s.rootTmpDir, a.authID, a.username, filepathBase uri.path]) r
    with e | fs1
  · rw [hcw] at h
    exact absurd h (by simp)
  · rw [hcw] at h
    simp only [] at h
    unfold StorageLocal.commitPutFile at h
    dsimp only [] at h
    rcases hrn : osRename fs1
        (filepathJoin [s.rootTmpDir, a.authID, a.username, filepathBase uri.path])
        (filepathJoin [s.rootDataDir, uri.path])
      with e | fs2
    · rw [hrn] at h
      exact absurd h (by simp)
    · rw [hrn] at h
      simp only [Prod.mk.injEq] at h
      have hfind1 := osCreateWrite_find fs _ r fs1 hcw
      have hclock : fs1.clock = fs.clock := by
        unfold osCreateWrite at hcw
        split at hcw
        · exact absurd hcw (by simp)
        · injection hcw with h1
          rw [← h1]
          rfl
        · split at hcw
          · injection hcw with h1
            rw [← h1]
            rfl
          · exact absurd hcw (by simp)
          · exact absurd hcw (by simp)
      have hmoved := osRename_moves fs1 _ _ _ fs2 hfind1 hrn
      rw [← h.2, hmoved]
      rfl

/-- Witness for C9 at concrete inputs: the declared size 99 gives the same
result as 3, and the stored bytes at the commit destination are the
stream's bytes. -/
theorem putFile_ignores_size_stores_stream_witness :
    sLocal.PutFile alice uriBeach [1, 2, 3] 99 fs0 =
      (none, (sLocal.PutFile alice uriBeach [1, 2, 3] 3 fs0).snd) ∧
    (fsFind (sLocal.PutFile alice uriBeach [1, 2, 3] 3 fs0).snd
      (filepathJoin ["/data", "/beach.png"])).bind nodeContent = some [1, 2, 3] := by
  have h := putFile_ignores_size_stores_stream sLocal alice uriBeach [1, 2, 3] 3 99
    fs0 (sLocal.PutFile alice uriBeach [1, 2, 3] 3 fs0).snd (by decide)
  exact ⟨h.1, h.2⟩
